import Mathlib

/-!
Shallow embedding of `fetch_data.py` (FPL-Bot): catalog snapshot construction
(`build_indexes`), squad resolution (`estimate_budget_and_squad`) and the
recommendation engine (`find_better_replacements`).

Modelling conventions:
- Python ints (costs in tenths of £m, the bank, ids) are `ℤ`.
- Python floats carrying performance signals (`ep_next`, `form`, ...) are exact
  rationals `ℚ`; the float literal `0.1` of the source is the rational `1/10`.
- A Python value that may be `None` (or an absent key read with `.get`) is an
  `Option`.
- `list.sort`, which Python guarantees to be a stable sort on the key, is
  modelled by `List.insertionSort`, which is stable and extensionally equal to
  any stable sort for a total transitive relation.
- Code that can raise returns `Except String`; the message records the Python
  exception class.
-/

namespace FPL

/-- An entity of the catalog snapshot, exactly the record `build_indexes`
stores in the `players` dict (absent/null `now_cost` is coerced to 0 at the
points the engine reads it, so it is stored as `ℤ` directly). -/
structure Player where
  id : ℤ
  code : Option ℤ
  name : String
  web_name : Option String
  team : String
  position : String
  position_sort : ℤ
  now_cost : ℤ
  form : ℚ
  points_per_game : ℚ
  selected_by_percent : ℚ
  ep_next : ℚ
  status : Option String
  chance_of_playing_next_round : Option ℤ
  image : String
  profile : String
deriving DecidableEq

/-- The players index: an insertion-ordered Python dict id → Player. -/
abbrev PlayersDict := List (ℤ × Player)

/-- The values view `dict.values()` in insertion order. -/
def dictValues (m : PlayersDict) : List Player := m.map Prod.snd

/-- Lookup `dict.get(k)` (keys are unique by construction, so first match). -/
def dictGet? (m : PlayersDict) (k : ℤ) : Option Player :=
  (m.find? fun x => decide (x.1 = k)).map Prod.snd

/-- Assignment `dict[k] = v`: overwrite in place if the key exists, else append. -/
def dictInsert (m : PlayersDict) (k : ℤ) (v : Player) : PlayersDict :=
  if m.any fun x => decide (x.1 = k) then
    m.map fun x => if x.1 = k then (k, v) else x
  else m ++ [(k, v)]

/-- A squad row as built by `estimate_budget_and_squad` (placeholder rows for
unknown ids have `none` status/image/profile). -/
structure SquadRow where
  element : ℤ
  name : String
  team : String
  position : String
  position_sort : ℤ
  now_cost : ℤ
  sell_price : ℤ
  ep_next : ℚ
  status : Option String
  image : Option String
  profile : Option String
  is_captain : Bool
  is_vice_captain : Bool
deriving DecidableEq

/-- The `out` summary of a suggestion (note: it carries no id). -/
structure OutSummary where
  name : String
  team : String
  position : String
  now_cost : ℤ
  ep_next : ℚ
  image : Option String
  profile : Option String
deriving DecidableEq

/-- The `in` summary of a suggestion. -/
structure InSummary where
  id : ℤ
  name : String
  team : String
  position : String
  now_cost : ℤ
  ep_next : ℚ
  image : String
  profile : String
deriving DecidableEq

/-- A transfer suggestion record. -/
structure Suggestion where
  out : OutSummary
  in_ : InSummary
  expected_points_gain : ℚ
  cost_change : ℤ
  affordable : Bool
deriving DecidableEq

/-- Python's `round(x, 2)` on the rational model. (Tie-at-half-an-ulp cases
behave differently on binary floats; no property below depends on a tie.) -/
def round2 (q : ℚ) : ℚ := (round (q * 100) : ℤ) / 100

/-- The candidate-pool pre-filter of `find_better_replacements`:
`p["status"] in ("a", "d") and p["ep_next"] > 0`. -/
def poolPred (p : Player) : Bool :=
  (decide (p.status = some "a") || decide (p.status = some "d")) && decide (0 < p.ep_next)

/-- The `out` summary built from the current squad row. -/
def mkOut (cur : SquadRow) : OutSummary :=
  { name := cur.name
    team := cur.team
    position := cur.position
    now_cost := cur.now_cost
    ep_next := cur.ep_next
    image := cur.image
    profile := cur.profile }

/-- The `in` summary built from a candidate. -/
def mkIn (c : Player) : InSummary :=
  { id := c.id
    name := c.name
    team := c.team
    position := c.position
    now_cost := c.now_cost
    ep_next := round2 c.ep_next
    image := c.image
    profile := c.profile }

/-- The suggestion record appended by the inner loop of
`find_better_replacements` for squad row `cur` and candidate `c`. -/
def mkSuggestion (bank : ℤ) (cur : SquadRow) (c : Player) : Suggestion :=
  { out := mkOut cur
    in_ := mkIn c
    expected_points_gain := round2 (c.ep_next - cur.ep_next)
    cost_change := c.now_cost - cur.sell_price
    affordable := decide (c.now_cost ≤ bank + cur.sell_price) }

/-- The list of suggestions that the two nested loops of
`find_better_replacements` emit, before ranking, deduplication and
truncation: the pool is filtered once by status/EP, then per squad row to the
same position, then by `price <= budget` and `ep_next > cur_ep + 0.1` with
`budget = bank + sell_price`. -/
def emittedSuggestions (squad : List SquadRow) (players : PlayersDict) (bank : ℤ) :
    List Suggestion :=
  let pool := (dictValues players).filter poolPred
  squad.flatMap fun cur =>
    let cands := pool.filter fun p => decide (p.position = cur.position)
    ((cands.filter fun c =>
        decide (c.now_cost ≤ bank + cur.sell_price) &&
          decide (cur.ep_next + 1 / 10 < c.ep_next)).map
      (mkSuggestion bank cur))

/-- The ordering of `suggestions.sort(key=lambda s: (-gain, cost_change))`:
lexicographic on `(-expected_points_gain, cost_change)`. -/
def suggRel (a b : Suggestion) : Prop :=
  b.expected_points_gain < a.expected_points_gain ∨
    (a.expected_points_gain = b.expected_points_gain ∧ a.cost_change ≤ b.cost_change)

instance : DecidableRel suggRel := fun a b => by unfold suggRel; infer_instance

instance : IsTotal Suggestion suggRel :=
  ⟨fun a b => by
    unfold suggRel
    rcases lt_trichotomy a.expected_points_gain b.expected_points_gain with h | h | h
    · exact Or.inr (Or.inl h)
    · rcases le_total a.cost_change b.cost_change with hc | hc
      · exact Or.inl (Or.inr ⟨h, hc⟩)
      · exact Or.inr (Or.inr ⟨h.symm, hc⟩)
    · exact Or.inl (Or.inl h)⟩

instance : IsTrans Suggestion suggRel :=
  ⟨fun a b c hab hbc => by
    unfold suggRel at *
    rcases hab with h1 | ⟨h1, h1c⟩ <;> rcases hbc with h2 | ⟨h2, h2c⟩
    · exact Or.inl (h2.trans h1)
    · exact Or.inl (h2 ▸ h1)
    · exact Or.inl (by rw [h1]; exact h2)
    · exact Or.inr ⟨h1.trans h2, h1c.trans h2c⟩⟩

/-- The sorting step: Python's stable `list.sort` on the key. -/
def rankedSuggestions (squad : List SquadRow) (players : PlayersDict) (bank : ℤ) :
    List Suggestion :=
  List.insertionSort suggRel (emittedSuggestions squad players bank)

/-- The dedup key of a suggestion: `(s["out"]["name"], s["in"]["name"])`. -/
def dedupKey (s : Suggestion) : String × String := (s.out.name, s.in_.name)

/-- The dedup-and-cap loop: scan the ranked list, keep a suggestion when its
key is unseen; `n` is the remaining capacity, so `n = 0` means the 50th
suggestion was just kept and the Python loop has broken out. -/
def dedupCapped : List Suggestion → List (String × String) → ℕ → List Suggestion
  | [], _, _ => []
  | s :: rest, seen, n =>
    if dedupKey s ∈ seen then dedupCapped rest seen n
    else
      match n with
      | 0 => []
      | m + 1 => s :: dedupCapped rest (dedupKey s :: seen) m

/-- The same scan without the safety cap. -/
def dedupAll : List Suggestion → List (String × String) → List Suggestion
  | [], _ => []
  | s :: rest, seen =>
    if dedupKey s ∈ seen then dedupAll rest seen
    else s :: dedupAll rest (dedupKey s :: seen)

/-- The engine `find_better_replacements(squad, players, bank)`: emit, rank, deduplicate
by `(out.name, in.name)` keeping the first occurrence, cap at 50. -/
def find_better_replacements (squad : List SquadRow) (players : PlayersDict) (bank : ℤ) :
    List Suggestion :=
  dedupCapped (rankedSuggestions squad players bank) [] 50

/-- Modelled from the spec (§4.3, refinement comparison only): the same engine
but with the budget clamped to zero when `bank + sell_price` is negative, as
the spec's words "clamped to zero rather than permitted to admit free
candidates" describe. -/
def find_better_replacements_clamped (squad : List SquadRow) (players : PlayersDict)
    (bank : ℤ) : List Suggestion :=
  let emitted :=
    let pool := (dictValues players).filter poolPred
    squad.flatMap fun cur =>
      let cands := pool.filter fun p => decide (p.position = cur.position)
      ((cands.filter fun c =>
          decide (c.now_cost ≤ max 0 (bank + cur.sell_price)) &&
            decide (cur.ep_next + 1 / 10 < c.ep_next)).map fun c =>
        { mkSuggestion bank cur c with
            affordable := decide (c.now_cost ≤ max 0 (bank + cur.sell_price)) })
  dedupCapped (List.insertionSort suggRel emitted) [] 50

/-- One pick of the picks payload. -/
structure Pick where
  element : ℤ
  is_captain : Bool
  is_vice_captain : Bool
deriving DecidableEq

/-- The picks payload consumed by `estimate_budget_and_squad`:
`entry_history.bank` (possibly absent/null) and the list of picks. -/
structure PicksJson where
  bank : Option ℤ
  picks : List Pick
deriving DecidableEq

/-- Position order of the squad sort: `key=lambda x: x["position_sort"]`. -/
def posRel (a b : SquadRow) : Prop := a.position_sort ≤ b.position_sort

instance : DecidableRel posRel := fun a b => by unfold posRel; infer_instance

/-- The squad row built for one pick: joined against the players dict when the
id resolves, a placeholder row (synthetic name `"Unknown " + str(el)`, default
attributes) when it does not. -/
def resolvePick (players : PlayersDict) (pick : Pick) : SquadRow :=
  match dictGet? players pick.element with
  | some p =>
    { element := pick.element
      name := p.name
      team := p.team
      position := p.position
      position_sort := p.position_sort
      now_cost := p.now_cost
      sell_price := p.now_cost
      ep_next := p.ep_next
      status := p.status
      image := some p.image
      profile := some p.profile
      is_captain := pick.is_captain
      is_vice_captain := pick.is_vice_captain }
  | none =>
    { element := pick.element
      name := "Unknown " ++ toString pick.element
      team := "UNK"
      position := "Unknown"
      position_sort := 99
      now_cost := 0
      sell_price := 0
      ep_next := 0
      status := none
      image := none
      profile := none
      is_captain := pick.is_captain
      is_vice_captain := pick.is_vice_captain }

/-- The resolver `estimate_budget_and_squad(picks_json, players)`: read the bank (0 when
absent), resolve every pick into a squad row, and stably sort the squad by
`position_sort`. Total: never raises. -/
def estimate_budget_and_squad (picks_json : PicksJson) (players : PlayersDict) :
    ℤ × List SquadRow :=
  let bank := picks_json.bank.getD 0
  let squad := picks_json.picks.map (resolvePick players)
  (bank, List.insertionSort posRel squad)

/-- Python `\s` (regex whitespace / `str.strip` set). -/
def pySpace (c : Char) : Bool :=
  c = ' ' || c = '\t' || c = '\n' || c = '\r' || c = '\x0b' || c = '\x0c'

/-- Python `str.strip()` on a character list. -/
def stripPy (cs : List Char) : List Char :=
  ((cs.dropWhile pySpace).reverse.dropWhile pySpace).reverse

/-- Python `re.sub(r"\s+", "-", s)`: replace every maximal run of whitespace by a
single dash. -/
def collapseSpaces : List Char → List Char
  | [] => []
  | [c] => if pySpace c then ['-'] else [c]
  | c1 :: c2 :: rest =>
    if pySpace c1 && pySpace c2 then collapseSpaces (c2 :: rest)
    else if pySpace c1 then '-' :: collapseSpaces (c2 :: rest)
    else c1 :: collapseSpaces (c2 :: rest)

/-- The helper `_slugify`: drop everything outside `[a-zA-Z0-9\s-]`, strip, lowercase,
collapse whitespace runs to dashes. -/
def _slugify (name : String) : String :=
  let kept := name.toList.filter fun c => c.isAlpha || c.isDigit || pySpace c || c = '-'
  let stripped := stripPy kept
  let lowered := stripped.map Char.toLower
  (collapseSpaces lowered).asString

/-- Value of a digit string (most significant first). -/
def digitsVal (cs : List Char) : ℕ :=
  cs.foldl (fun acc c => acc * 10 + (c.toNat - 48)) 0

/-- Python `float()` on a string: optional sign, digits with an optional
fractional part. Yields `none` where Python raises `ValueError`. -/
def parseDecimal (s : String) : Option ℚ :=
  let t := (stripPy s.toList).asString
  let neg := t.startsWith "-"
  let u := if t.startsWith "-" || t.startsWith "+" then t.drop 1 else t
  let mk : ℚ → Option ℚ := fun q => some (if neg then -q else q)
  match u.splitOn "." with
  | [a] =>
    if 0 < a.length && a.toList.all Char.isDigit then mk (digitsVal a.toList : ℚ)
    else none
  | [a, b] =>
    if (0 < a.length || 0 < b.length) && a.toList.all Char.isDigit &&
        b.toList.all Char.isDigit then
      mk ((digitsVal a.toList : ℚ) + (digitsVal b.toList : ℚ) / ((10 : ℚ) ^ b.length))
    else none
  | _ => none

/-- The idiom `float(p.get(k) or 0.0)`: an absent/null (or empty-string, both
falsy) field defaults to 0.0; a present string is parsed, raising
`ValueError` when unparsable. -/
def pyFloatOr (v : Option String) : Except String ℚ :=
  match v with
  | none => .ok 0
  | some s =>
    if s = "" then .ok 0
    else
      match parseDecimal s with
      | some q => .ok q
      | none => .error "ValueError: could not convert string to float"

/-- The expression `float((p.get("selected_by_percent") or 0).replace("%", "") or 0)`: a
missing/null (or empty, falsy) field falls back to the *int* 0, which has no
`.replace`, so the expression raises `AttributeError` instead of defaulting
to 0.0. -/
def parseSelectedBy (v : Option String) : Except String ℚ :=
  match v with
  | none => .error "AttributeError: int object has no attribute replace"
  | some s =>
    if s = "" then .error "AttributeError: int object has no attribute replace"
    else
      let s2 := s.replace "%" ""
      if s2 = "" then .ok 0
      else
        match parseDecimal s2 with
        | some q => .ok q
        | none => .error "ValueError: could not convert string to float"

/-- A raw element of the bootstrap payload; `none` stands for an absent key or
a JSON null (both read back as Python `None` via `.get`). Numeric signals
arrive as strings upstream. -/
structure RawElement where
  id : ℤ
  code : Option ℤ
  photo : Option String
  first_name : Option String
  second_name : Option String
  web_name : Option String
  team : Option ℤ
  element_type : Option ℤ
  now_cost : Option ℤ
  form : Option String
  points_per_game : Option String
  selected_by_percent : Option String
  ep_next : Option String
  status : Option String
  chance_of_playing_next_round : Option ℤ
deriving DecidableEq

/-- The bootstrap payload: team lookup rows `(id, short_name)` plus elements. -/
structure Bootstrap where
  teams : List (ℤ × String)
  elements : List RawElement
deriving DecidableEq

/-- The mapping `POSITION_MAP.get(element_type, "Unknown")`. -/
def positionName (et : Option ℤ) : String :=
  match et with
  | some 1 => "Goalkeeper"
  | some 2 => "Defender"
  | some 3 => "Midfielder"
  | some 4 => "Forward"
  | _ => "Unknown"

/-- Construction of one player record of `build_indexes`, with the numeric
fields parsed in the evaluation order of the Python dict literal (`form`,
`points_per_game`, `selected_by_percent`, `ep_next`); the first failure
propagates as the raised exception. -/
def buildEntity (teams : List (ℤ × String)) (p : RawElement) : Except String Player :=
  let code_raw := match p.code with | some n => toString n | none => ""
  let photo_raw := (((p.photo.getD "").splitOn ".").headD "")
  let img_code := if code_raw = "" then photo_raw else code_raw
  let img_url :=
    "https://resources.premierleague.com/premierleague/photos/players/110x140/p"
      ++ img_code ++ ".png"
  let full_name :=
    (stripPy ((p.first_name.getD "") ++ " " ++ (p.second_name.getD "")).toList).asString
  let team_short :=
    match p.team with
    | some t => ((teams.find? fun x => decide (x.1 = t)).map Prod.snd).getD "UNK"
    | none => "UNK"
  let pos_name := positionName p.element_type
  let profile_slug := _slugify full_name
  let codeStr := match p.code with | some n => toString n | none => "None"
  let profile_url :=
    "https://fantasy.premierleague.com/players/" ++ codeStr ++ "/" ++ profile_slug
  match pyFloatOr p.form with
  | .error m => .error m
  | .ok formV =>
    match pyFloatOr p.points_per_game with
    | .error m => .error m
    | .ok ppgV =>
      match parseSelectedBy p.selected_by_percent with
      | .error m => .error m
      | .ok sbpV =>
        match pyFloatOr p.ep_next with
        | .error m => .error m
        | .ok epV =>
          .ok
            { id := p.id
              code := p.code
              name := full_name
              web_name := p.web_name
              team := team_short
              position := pos_name
              position_sort := p.element_type.getD 99
              now_cost := p.now_cost.getD 0
              form := formV
              points_per_game := ppgV
              selected_by_percent := sbpV
              ep_next := epV
              status := p.status
              chance_of_playing_next_round := p.chance_of_playing_next_round
              image := img_url
              profile := profile_url }

/-- The element loop of `build_indexes`: `players[p["id"]] = {...}` in payload
order; the first exception aborts the whole construction. -/
def buildPlayers (teams : List (ℤ × String)) :
    List RawElement → PlayersDict → Except String PlayersDict
  | [], acc => .ok acc
  | p :: rest, acc =>
    match buildEntity teams p with
    | .error m => .error m
    | .ok ent => buildPlayers teams rest (dictInsert acc p.id ent)

/-- The builder `build_indexes(bootstrap)`: the team short-name lookup and the players
dict; raises (returns `.error`) when any element raises. -/
def build_indexes (bs : Bootstrap) :
    Except String (PlayersDict × List (ℤ × String)) :=
  match buildPlayers bs.teams bs.elements [] with
  | .error m => .error m
  | .ok players => .ok (players, bs.teams)

/-- Whether an `Except` value is a raised exception. -/
def isError {α : Type} : Except String α → Bool
  | .error _ => true
  | .ok _ => false

/-- The full filter a catalog entity must pass, for a given squad row, to have
a suggestion emitted: the candidate-pool pre-filter (status `a`/`d`, positive
`ep_next`), the same position, affordability within `bank + sell_price`, and
the `0.1` upgrade margin. -/
def candidateCond (bank : ℤ) (r : SquadRow) (c : Player) : Prop :=
  (c.status = some "a" ∨ c.status = some "d") ∧ 0 < c.ep_next ∧
    c.position = r.position ∧ c.now_cost ≤ bank + r.sell_price ∧
    r.ep_next + 1 / 10 < c.ep_next

instance (bank : ℤ) (r : SquadRow) (c : Player) : Decidable (candidateCond bank r c) := by
  unfold candidateCond; infer_instance

/-! Concrete inputs used by witnesses and counterexamples. -/

/-- A catalog entity with the given id, name, position, cost and EP (remaining
attributes fixed); status `a` so it always enters the candidate pool. -/
def wPlayer (pid : ℤ) (nm pos : String) (cost : ℤ) (ep : ℚ) : Player :=
  { id := pid, code := none, name := nm, web_name := none, team := "T", position := pos
    position_sort := 0, now_cost := cost, form := 0, points_per_game := 0
    selected_by_percent := 0, ep_next := ep, status := some "a"
    chance_of_playing_next_round := none, image := "img", profile := "url" }

/-- A squad row with the given element id, name, position, costs and EP. -/
def wRow (el : ℤ) (nm pos : String) (cost sell : ℤ) (ep : ℚ) : SquadRow :=
  { element := el, name := nm, team := "T", position := pos, position_sort := 0
    now_cost := cost, sell_price := sell, ep_next := ep, status := some "a"
    image := none, profile := none, is_captain := false, is_vice_captain := false }

def rowAlpha : SquadRow := wRow 1 "Alpha" "Defender" 40 40 1
def candBeta : Player := wPlayer 5 "Beta" "Defender" 40 5
def candGamma : Player := wPlayer 6 "Gamma" "Defender" 40 3
def dictA : PlayersDict := [(5, candBeta), (6, candGamma)]

def rowTieA : SquadRow := wRow 2 "Alpha" "Defender" 40 40 1
def rowTieB : SquadRow := wRow 1 "Beta" "Defender" 40 40 1
def candTie : Player := wPlayer 5 "Gamma" "Defender" 40 5
def dictTie : PlayersDict := [(5, candTie)]

def rowNeg : SquadRow := wRow 1 "Rho" "Forward" 0 0 0
def candFree : Player := wPlayer 9 "Phi" "Forward" 0 5
def dictNeg : PlayersDict := [(9, candFree)]

def rowMu : SquadRow := wRow 1 "Mu" "Defender" 40 40 1
def rowNu : SquadRow := wRow 2 "Nu" "Defender" 45 45 5
def candNu : Player := wPlayer 2 "Nu" "Defender" 45 5
def dictM : PlayersDict := [(2, candNu)]

def pickU : Pick := { element := 7, is_captain := false, is_vice_captain := false }
def picksU : PicksJson := { bank := some 0, picks := [pickU] }

def rawSbpMissing : RawElement :=
  { id := 1, code := some 10, photo := some "10.jpg", first_name := some "Jo"
    second_name := some "Doe", web_name := some "Jo", team := some 1
    element_type := some 2, now_cost := some 40, form := none
    points_per_game := none, selected_by_percent := none, ep_next := none
    status := some "a", chance_of_playing_next_round := none }

def bootSbpMissing : Bootstrap := { teams := [(1, "ARS")], elements := [rawSbpMissing] }

def rawSbpPresent : RawElement := { rawSbpMissing with selected_by_percent := some "5" }

def suggAB : Suggestion := mkSuggestion 0 rowAlpha candBeta
def suggAG : Suggestion := mkSuggestion 0 rowAlpha candGamma
def suggTieA : Suggestion := mkSuggestion 0 rowTieA candTie
def suggTieB : Suggestion := mkSuggestion 0 rowTieB candTie

/-! Helper lemmas about the dedup loop, the sort and the emission list. -/

theorem dedupCapped_eq_take (l : List Suggestion) :
    ∀ (seen : List (String × String)) (n : ℕ),
      dedupCapped l seen n = (dedupAll l seen).take n := by
  induction l with
  | nil => intro seen n; simp [dedupCapped, dedupAll]
  | cons s rest ih =>
    intro seen n
    by_cases h : dedupKey s ∈ seen
    · simp [dedupCapped, dedupAll, h, ih]
    · cases n with
      | zero => simp [dedupCapped, dedupAll, h]
      | succ m => simp [dedupCapped, dedupAll, h, ih]

theorem dedupAll_sublist (l : List Suggestion) :
    ∀ seen : List (String × String), (dedupAll l seen).Sublist l := by
  induction l with
  | nil => intro seen; simp [dedupAll]
  | cons s rest ih =>
    intro seen
    by_cases h : dedupKey s ∈ seen
    · simp only [dedupAll, if_pos h]
      exact (ih seen).cons s
    · simp only [dedupAll, if_neg h]
      exact (ih (dedupKey s :: seen)).cons₂ s

theorem mem_dedupAll_not_seen {s : Suggestion} (l : List Suggestion) :
    ∀ seen : List (String × String), s ∈ dedupAll l seen → dedupKey s ∉ seen := by
  induction l with
  | nil => intro seen hs; simp [dedupAll] at hs
  | cons t rest ih =>
    intro seen hs
    by_cases h : dedupKey t ∈ seen
    · simp only [dedupAll, if_pos h] at hs
      exact ih seen hs
    · simp only [dedupAll, if_neg h, List.mem_cons] at hs
      rcases hs with rfl | hs
      · exact h
      · exact fun hmem => ih (dedupKey t :: seen) hs (List.mem_cons_of_mem _ hmem)

theorem dedupAll_pairwise (l : List Suggestion) :
    ∀ seen : List (String × String),
      (dedupAll l seen).Pairwise fun a b => dedupKey a ≠ dedupKey b := by
  induction l with
  | nil => intro seen; simp [dedupAll]
  | cons t rest ih =>
    intro seen
    by_cases h : dedupKey t ∈ seen
    · simp only [dedupAll, if_pos h]
      exact ih seen
    · simp only [dedupAll, if_neg h]
      refine List.Pairwise.cons ?_ (ih (dedupKey t :: seen))
      intro b hb
      have := mem_dedupAll_not_seen rest (dedupKey t :: seen) hb
      exact fun he => this (he ▸ List.mem_cons_self _ _)

theorem find?_dedupAll {s : Suggestion} (l : List Suggestion) :
    ∀ seen : List (String × String), s ∈ dedupAll l seen →
      l.find? (fun t => decide (dedupKey t = dedupKey s)) = some s := by
  induction l with
  | nil => intro seen hs; simp [dedupAll] at hs
  | cons t rest ih =>
    intro seen hs
    by_cases h : dedupKey t ∈ seen
    · simp only [dedupAll, if_pos h] at hs
      have hne : dedupKey t ≠ dedupKey s :=
        fun he => mem_dedupAll_not_seen rest seen hs (he ▸ h)
      rw [List.find?_cons_of_neg _ (by simpa using hne)]
      exact ih seen hs
    · simp only [dedupAll, if_neg h, List.mem_cons] at hs
      rcases hs with rfl | hs
      · rw [List.find?_cons_of_pos _ (by simp)]
      · have hns := mem_dedupAll_not_seen rest (dedupKey t :: seen) hs
        have hne : dedupKey t ≠ dedupKey s :=
          fun he => hns (he ▸ List.mem_cons_self _ _)
        rw [List.find?_cons_of_neg _ (by simpa using hne)]
        exact ih (dedupKey t :: seen) hs

theorem output_sublist_ranked (squad : List SquadRow) (players : PlayersDict) (bank : ℤ) :
    (find_better_replacements squad players bank).Sublist
      (rankedSuggestions squad players bank) := by
  unfold find_better_replacements
  rw [dedupCapped_eq_take]
  exact (List.take_sublist _ _).trans (dedupAll_sublist _ _)

theorem ranked_sorted (squad : List SquadRow) (players : PlayersDict) (bank : ℤ) :
    (rankedSuggestions squad players bank).Sorted suggRel :=
  List.sorted_insertionSort suggRel _

theorem mem_emitted {squad : List SquadRow} {players : PlayersDict} {bank : ℤ}
    {s : Suggestion} :
    s ∈ emittedSuggestions squad players bank ↔
      ∃ r ∈ squad, ∃ c ∈ dictValues players,
        candidateCond bank r c ∧ s = mkSuggestion bank r c := by
  simp only [emittedSuggestions, List.mem_flatMap, List.mem_map, List.mem_filter,
    Bool.and_eq_true, decide_eq_true_eq, poolPred, Bool.or_eq_true, candidateCond]
  constructor
  · rintro ⟨r, hr, s', ⟨⟨⟨hmem, hst, hep⟩, hpos⟩, haff, heps⟩, rfl⟩
    exact ⟨r, hr, s', hmem, ⟨hst, hep, hpos, haff, heps⟩, rfl⟩
  · rintro ⟨r, hr, c, hcmem, ⟨hst, hep, hpos, haff, heps⟩, rfl⟩
    exact ⟨r, hr, c, ⟨⟨⟨hcmem, hst, hep⟩, hpos⟩, haff, heps⟩, rfl⟩

/-! Claim theorems. -/

/-- C1: for every squad row `r` and catalog entity `c`,
`find_better_replacements` emits (before ranking, deduplication and
truncation) the suggestion built from `r` and `c` exactly when `c` is in the
candidate pool (status `a` or `d`, `ep_next > 0`), has the position of `r`,
costs at most `bank + r.sell_price`, and exceeds `r.ep_next` by more than
0.1; the emitted record carries `round(c.ep_next - r.ep_next, 2)` as the
expected points gain, `c.now_cost - r.sell_price` as the cost change, and
`affordable = true`. -/
theorem C1_emission_exact (squad : List SquadRow) (players : PlayersDict) (bank : ℤ) :
    (∀ r ∈ squad, ∀ c ∈ dictValues players, candidateCond bank r c →
        mkSuggestion bank r c ∈ emittedSuggestions squad players bank) ∧
    (∀ s ∈ emittedSuggestions squad players bank,
        ∃ r ∈ squad, ∃ c ∈ dictValues players, candidateCond bank r c ∧
          s = mkSuggestion bank r c ∧
          s.expected_points_gain = round2 (c.ep_next - r.ep_next) ∧
          s.cost_change = c.now_cost - r.sell_price ∧
          s.affordable = true) := by
  constructor
  · intro r hr c hc hcond
    exact mem_emitted.mpr ⟨r, hr, c, hc, hcond, rfl⟩
  · intro s hs
    obtain ⟨r, hr, c, hcmem, hcond, rfl⟩ := mem_emitted.mp hs
    refine ⟨r, hr, c, hcmem, hcond, rfl, rfl, rfl, ?_⟩
    simp [mkSuggestion, hcond.2.2.2.1]

/-- Witness for C1: at a concrete squad, catalog and bank, the qualifying
candidate's suggestion is emitted. -/
theorem C1_emission_exact_witness :
    mkSuggestion 0 rowAlpha candBeta ∈ emittedSuggestions [rowAlpha] dictA 0 :=
  (C1_emission_exact [rowAlpha] dictA 0).1 rowAlpha (by with_unfolding_all decide)
    candBeta (by with_unfolding_all decide) (by with_unfolding_all decide)

/-- C2: any suggestion appearing before another in the returned list has a
strictly greater expected points gain, or an equal gain and a cost change at
most that of the later one; deduplication and truncation preserve the sorted
order. -/
theorem C2_ranking_invariant (squad : List SquadRow) (players : PlayersDict) (bank : ℤ)
    (s1 s2 : Suggestion)
    (h : [s1, s2].Sublist (find_better_replacements squad players bank)) :
    s2.expected_points_gain < s1.expected_points_gain ∨
      (s1.expected_points_gain = s2.expected_points_gain ∧
        s1.cost_change ≤ s2.cost_change) := by
  have hp : [s1, s2].Pairwise suggRel :=
    List.Pairwise.sublist (h.trans (output_sublist_ranked squad players bank))
      (ranked_sorted squad players bank)
  have hrel : suggRel s1 s2 := List.pairwise_pair.mp hp
  exact hrel

/-- Witness for C2 at a concrete two-suggestion output. -/
theorem C2_ranking_invariant_witness :
    suggAG.expected_points_gain < suggAB.expected_points_gain ∨
      (suggAB.expected_points_gain = suggAG.expected_points_gain ∧
        suggAB.cost_change ≤ suggAG.cost_change) :=
  C2_ranking_invariant [rowAlpha] dictA 0 suggAB suggAG (by with_unfolding_all decide)

/-- C3: every returned suggestion originates from a squad row `r` whose out
summary it carries, with the incoming entity's cost at most
`bank + r.sell_price`. -/
theorem C3_budget_invariant (squad : List SquadRow) (players : PlayersDict) (bank : ℤ)
    (s : Suggestion) (hs : s ∈ find_better_replacements squad players bank) :
    ∃ r ∈ squad, s.out = mkOut r ∧ s.in_.now_cost ≤ bank + r.sell_price := by
  have h1 : s ∈ rankedSuggestions squad players bank :=
    (output_sublist_ranked squad players bank).subset hs
  have hmem : s ∈ emittedSuggestions squad players bank :=
    (List.perm_insertionSort suggRel _).subset h1
  obtain ⟨r, hr, c, hcmem, hcond, rfl⟩ := mem_emitted.mp hmem
  exact ⟨r, hr, rfl, hcond.2.2.2.1⟩

/-- Witness for C3 at a concrete returned suggestion. -/
theorem C3_budget_invariant_witness :
    ∃ r ∈ [rowAlpha], suggAB.out = mkOut r ∧ suggAB.in_.now_cost ≤ 0 + r.sell_price :=
  C3_budget_invariant [rowAlpha] dictA 0 suggAB (by with_unfolding_all decide)

/-- C4 counterexample: two suggestions equal on both sort keys are returned
in squad-iteration order, not ordered by `(out.id, in.id)`: the suggestion
from the element-2 row precedes the one from the element-1 row against the
same incoming id-5 candidate, and swapping the squad order swaps the output
order while the id pairs are unchanged, so equal-key order is decided by
input order and by no id-keyed tie-break (the out summary does not even
carry an id). -/
theorem C4_no_id_tiebreak_counterexample :
    find_better_replacements [rowTieA, rowTieB] dictTie 0 = [suggTieA, suggTieB] ∧
    find_better_replacements [rowTieB, rowTieA] dictTie 0 = [suggTieB, suggTieA] ∧
    suggTieA.expected_points_gain = suggTieB.expected_points_gain ∧
    suggTieA.cost_change = suggTieB.cost_change ∧
    rowTieA.element = 2 ∧ rowTieB.element = 1 ∧ candTie.id = 5 := by
  with_unfolding_all decide

/-- C4 (amended): the aggregated suggestions are sorted by
`expected_points_gain` descending then `cost_change` ascending, and
suggestions equal on both keys keep their emission order (the sort is
stable); there is no further `(out.id, in.id)` key. -/
theorem C4_sort_keys_and_stability (squad : List SquadRow) (players : PlayersDict)
    (bank : ℤ) :
    (rankedSuggestions squad players bank).Sorted suggRel ∧
    (∀ s1 s2 : Suggestion, [s1, s2].Sublist (emittedSuggestions squad players bank) →
      s1.expected_points_gain = s2.expected_points_gain →
      s1.cost_change = s2.cost_change →
      [s1, s2].Sublist (rankedSuggestions squad players bank)) := by
  refine ⟨ranked_sorted squad players bank, ?_⟩
  intro s1 s2 h hg hc
  exact List.pair_sublist_insertionSort (Or.inr ⟨hg, le_of_eq hc⟩) h

/-- Witness for C4 (amended): a concrete tie kept in emission order. -/
theorem C4_sort_keys_and_stability_witness :
    [suggTieA, suggTieB].Sublist (rankedSuggestions [rowTieA, rowTieB] dictTie 0) :=
  (C4_sort_keys_and_stability [rowTieA, rowTieB] dictTie 0).2 suggTieA suggTieB
    (by with_unfolding_all decide) (by with_unfolding_all decide)
    (by with_unfolding_all decide)

/-- C5 counterexample: with `bank = -5` and a sell price of 0 the budget
`bank + sell_price = -5` is used as-is, not clamped to zero: a free
(cost-0) candidate is rejected by the code, while the clamped engine the
claim describes would return it. -/
theorem C5_no_clamp_counterexample :
    find_better_replacements [rowNeg] dictNeg (-5) = [] ∧
    find_better_replacements_clamped [rowNeg] dictNeg (-5) ≠ [] := by
  with_unfolding_all decide

theorem flatMap_erase_of_contrib_nil {α β : Type} [DecidableEq α] (f : α → List β)
    (a : α) (h : f a = []) :
    ∀ l : List α, l.flatMap f = (l.erase a).flatMap f := by
  intro l
  induction l with
  | nil => rfl
  | cons b t ih =>
    rw [List.erase_cons]
    by_cases hb : b = a
    · subst hb
      simp [List.flatMap_cons, h]
    · rw [if_neg (by simpa using hb), List.flatMap_cons, List.flatMap_cons, ih]

/-- C5 (amended): a squad row `r` whose budget `bank + r.sell_price` is
negative has that negative budget used unclamped; since catalog costs are
non-negative, no candidate passes `r`'s affordability test, so `r`
contributes no suggestion — the returned list equals that of the squad with
`r` removed — and the malformed bank is handled locally, not propagated as
an error. -/
theorem C5_negative_budget_rejects_all (squad : List SquadRow) (players : PlayersDict)
    (bank : ℤ) (r : SquadRow) (hc : ∀ c ∈ dictValues players, 0 ≤ c.now_cost)
    (hb : bank + r.sell_price < 0) :
    (∀ c ∈ dictValues players, ¬ candidateCond bank r c) ∧
    find_better_replacements squad players bank =
      find_better_replacements (squad.erase r) players bank := by
  refine ⟨?_, ?_⟩
  · intro c hcm hcond
    have h1 : 0 ≤ c.now_cost := hc c hcm
    have h3 : c.now_cost ≤ bank + r.sell_price := hcond.2.2.2.1
    omega
  · have he : emittedSuggestions squad players bank =
        emittedSuggestions (squad.erase r) players bank := by
      unfold emittedSuggestions
      apply flatMap_erase_of_contrib_nil
      rw [List.map_eq_nil_iff, List.filter_eq_nil_iff]
      intro c hcm
      have h1 : 0 ≤ c.now_cost := by
        refine hc c ?_
        exact (List.mem_filter.mp ((List.mem_filter.mp hcm).1)).1
      simp only [Bool.and_eq_true, decide_eq_true_eq, not_and]
      intro haff
      omega
    unfold find_better_replacements rankedSuggestions
    rw [he]

/-- Witness for C5 (amended) on a mixed squad: the negative-budget row Rho
admits no candidate and drops out; the remaining row is unaffected. -/
theorem C5_negative_budget_rejects_all_witness :
    (∀ c ∈ dictValues dictNeg, ¬ candidateCond (-5) rowNeg c) ∧
    find_better_replacements [rowNeg, rowAlpha] dictNeg (-5) =
      find_better_replacements ([rowNeg, rowAlpha].erase rowNeg) dictNeg (-5) :=
  C5_negative_budget_rejects_all [rowNeg, rowAlpha] dictNeg (-5) rowNeg
    (by with_unfolding_all decide) (by with_unfolding_all decide)

/-- C6: no two returned suggestions share the `(out.name, in.name)` key, and
every returned suggestion is the first suggestion with its key in the ranked
(sorted) sequence, i.e. the highest-ranked occurrence is the one kept. -/
theorem C6_dedup_invariant (squad : List SquadRow) (players : PlayersDict) (bank : ℤ) :
    (find_better_replacements squad players bank).Pairwise
      (fun s1 s2 => dedupKey s1 ≠ dedupKey s2) ∧
    (∀ s ∈ find_better_replacements squad players bank,
      (rankedSuggestions squad players bank).find?
        (fun t => decide (dedupKey t = dedupKey s)) = some s) := by
  constructor
  · have h1 : (find_better_replacements squad players bank).Sublist
        (dedupAll (rankedSuggestions squad players bank) []) := by
      unfold find_better_replacements
      rw [dedupCapped_eq_take]
      exact List.take_sublist _ _
    exact List.Pairwise.sublist h1 (dedupAll_pairwise _ [])
  · intro s hs
    have h1 : s ∈ dedupAll (rankedSuggestions squad players bank) [] := by
      have h2 : (find_better_replacements squad players bank).Sublist
          (dedupAll (rankedSuggestions squad players bank) []) := by
        unfold find_better_replacements
        rw [dedupCapped_eq_take]
        exact List.take_sublist _ _
      exact h2.subset hs
    exact find?_dedupAll _ [] h1

/-- Witness for C6: the concrete top suggestion is the first with its key in
the ranked sequence. -/
theorem C6_dedup_invariant_witness :
    (rankedSuggestions [rowAlpha] dictA 0).find?
      (fun t => decide (dedupKey t = dedupKey suggAB)) = some suggAB :=
  (C6_dedup_invariant [rowAlpha] dictA 0).2 suggAB (by with_unfolding_all decide)

/-- C7: the returned list holds at most 50 suggestions and is exactly the
first 50 of the deduplicated ranked sequence, so truncation preserves the
relative order of the kept suggestions. -/
theorem C7_cap_invariant (squad : List SquadRow) (players : PlayersDict) (bank : ℤ) :
    (find_better_replacements squad players bank).length ≤ 50 ∧
    find_better_replacements squad players bank =
      (dedupAll (rankedSuggestions squad players bank) []).take 50 := by
  have he : find_better_replacements squad players bank =
      (dedupAll (rankedSuggestions squad players bank) []).take 50 := by
    unfold find_better_replacements
    rw [dedupCapped_eq_take]
  exact ⟨by rw [he]; exact List.length_take_le _ _, he⟩

/-- C8 counterexample: the placeholder row for an id absent from the players
mapping carries the synthetic name `"Unknown 7"` (Python `f"Unknown {el}"`),
which is not the `"Unknown #7"` shape the claim states. -/
theorem C8_placeholder_name_counterexample :
    (estimate_budget_and_squad picksU []).2 = [resolvePick [] pickU] ∧
    (resolvePick [] pickU).name = "Unknown 7" ∧
    "Unknown 7" ≠ "Unknown #7" := by
  with_unfolding_all decide

/-- C8 (amended): a pick whose entity id is absent from the players mapping
yields a placeholder squad row with the synthetic name
`"Unknown " ++ toString id` (no `#`) and default attribute values, contained
in the squad returned by the total function `estimate_budget_and_squad` — the
unknown-entity condition is never propagated to the caller. -/
theorem C8_unknown_pick_placeholder (picks_json : PicksJson) (players : PlayersDict)
    (pick : Pick) (hp : pick ∈ picks_json.picks)
    (hm : dictGet? players pick.element = none) :
    ({ element := pick.element, name := "Unknown " ++ toString pick.element
       team := "UNK", position := "Unknown", position_sort := 99, now_cost := 0
       sell_price := 0, ep_next := 0, status := none, image := none, profile := none
       is_captain := pick.is_captain, is_vice_captain := pick.is_vice_captain } :
      SquadRow) ∈ (estimate_budget_and_squad picks_json players).2 := by
  have hres : resolvePick players pick =
      { element := pick.element, name := "Unknown " ++ toString pick.element
        team := "UNK", position := "Unknown", position_sort := 99, now_cost := 0
        sell_price := 0, ep_next := 0, status := none, image := none, profile := none
        is_captain := pick.is_captain, is_vice_captain := pick.is_vice_captain } := by
    unfold resolvePick
    rw [hm]
  have hmem : resolvePick players pick ∈ picks_json.picks.map (resolvePick players) :=
    List.mem_map.mpr ⟨pick, hp, rfl⟩
  rw [hres] at hmem
  exact (List.mem_insertionSort posRel).mpr hmem

/-- Witness for C8 (amended): the concrete unknown pick 7. -/
theorem C8_unknown_pick_placeholder_witness :
    ({ element := (7 : ℤ), name := "Unknown " ++ toString (7 : ℤ), team := "UNK"
       position := "Unknown", position_sort := 99, now_cost := 0, sell_price := 0
       ep_next := 0, status := none, image := none, profile := none
       is_captain := false, is_vice_captain := false } : SquadRow) ∈
      (estimate_budget_and_squad picksU []).2 :=
  C8_unknown_pick_placeholder picksU [] pickU (by with_unfolding_all decide)
    (by with_unfolding_all decide)

theorem buildEntity_error_of_sbp_none (teams : List (ℤ × String)) (e : RawElement)
    (h : e.selected_by_percent = none) : isError (buildEntity teams e) = true := by
  unfold buildEntity
  cases hf : pyFloatOr e.form with
  | error m => simp [hf, isError]
  | ok vf =>
    cases hp : pyFloatOr e.points_per_game with
    | error m => simp [hf, hp, isError]
    | ok vp => simp [hf, hp, h, parseSelectedBy, isError]

theorem buildPlayers_error_of_mem (teams : List (ℤ × String)) :
    ∀ (l : List RawElement) (acc : PlayersDict) (e : RawElement), e ∈ l →
      isError (buildEntity teams e) = true →
      isError (buildPlayers teams l acc) = true := by
  intro l
  induction l with
  | nil => intro acc e he _; simp at he
  | cons p rest ih =>
    intro acc e he herr
    rcases List.mem_cons.mp he with rfl | hmem
    · cases hq : buildEntity teams e with
      | error m => simp [buildPlayers, hq, isError]
      | ok ent => rw [hq] at herr; simp [isError] at herr
    · cases hq : buildEntity teams p with
      | error m => simp [buildPlayers, hq, isError]
      | ok ent =>
        simp only [buildPlayers, hq]
        exact ih (dictInsert acc p.id ent) e hmem herr

/-- C9: a catalog element whose `selected_by_percent` is absent or null makes
`build_indexes` raise while constructing the snapshot (the int fallback 0 has
no `.replace`), instead of defaulting the value to 0.0 — unlike `form`,
`points_per_game` and `ep_next`, which default safely to 0.0 when absent. -/
theorem C9_selected_by_percent_raises :
    (∀ bs : Bootstrap, ∀ e ∈ bs.elements, e.selected_by_percent = none →
        isError (build_indexes bs) = true) ∧
    (∀ (teams : List (ℤ × String)) (e : RawElement) (s : String) (q : ℚ),
        e.form = none → e.points_per_game = none → e.ep_next = none →
        e.selected_by_percent = some s → parseSelectedBy (some s) = .ok q →
        ∃ pl, buildEntity teams e = .ok pl ∧ pl.form = 0 ∧ pl.points_per_game = 0 ∧
          pl.ep_next = 0 ∧ pl.selected_by_percent = q) := by
  constructor
  · intro bs e he hsbp
    have h1 := buildEntity_error_of_sbp_none bs.teams e hsbp
    have h2 := buildPlayers_error_of_mem bs.teams bs.elements [] e he h1
    unfold build_indexes
    cases hq : buildPlayers bs.teams bs.elements [] with
    | error m => rfl
    | ok pls => rw [hq] at h2; simp [isError] at h2
  · intro teams e s q hf hp hep hsbp hparse
    unfold buildEntity
    simp only [hf, hp, hep, hsbp, hparse, pyFloatOr]
    exact ⟨_, rfl, rfl, rfl, rfl, rfl⟩

/-- Witness for C9: a concrete element with the field missing raises; the
same element with `selected_by_percent = "5"` builds with the 0.0 defaults. -/
theorem C9_selected_by_percent_raises_witness :
    isError (build_indexes bootSbpMissing) = true ∧
    (∃ pl, buildEntity [(1, "ARS")] rawSbpPresent = .ok pl ∧ pl.form = 0 ∧
      pl.points_per_game = 0 ∧ pl.ep_next = 0 ∧ pl.selected_by_percent = 5) :=
  ⟨C9_selected_by_percent_raises.1 bootSbpMissing rawSbpMissing
      (by with_unfolding_all decide) rfl,
    C9_selected_by_percent_raises.2 [(1, "ARS")] rawSbpPresent "5" 5 rfl rfl rfl rfl
      (by with_unfolding_all rfl)⟩

/-- C10: the candidate pool is drawn from the whole catalog and is not
restricted to entities outside the squad: at this concrete input the
returned list proposes current squad member id 2 as the incoming
replacement for a different squad row. -/
theorem C10_pool_includes_squad_members :
    ∃ s ∈ find_better_replacements [rowMu, rowNu] dictM 10,
      ∃ r ∈ [rowMu, rowNu], s.in_.id = r.element ∧ s.out.name ≠ r.name := by
  with_unfolding_all decide

end FPL
